import Mathlib

/-!
Verification of the sandbox launcher `parent.py` (version 25.2): a shallow
embedding of its supervisor classification, wait-status decoding, resource
limit translation, seccomp filter construction and environment assembly,
together with theorems about the specified behaviour.

Conventions of the embedding:
- Python `int` becomes `Int`; optional CLI integers become `Option Int`,
  and Python truthiness (`if x:` is false for both `None` and `0`) is made
  explicit through `truthyInt`.
- Python float arithmetic in the tolerance re-check is modelled over `ℚ`;
  at the magnitudes involved the binary-float and rational computations
  compare identically against the integer budgets.
- A POSIX wait status is a `Nat` with the usual bit layout: the low seven
  bits hold the terminating signal (0 for a normal exit, 0x7f for a stopped
  child) and the next eight bits hold the exit code.
-/

/-- Python truthiness of an optional integer option: both `None` and `0` are falsy. -/
def truthyInt : Option Int → Bool
  | Option.none => false
  | some n => n != 0

/-- POSIX wait-status predicate: the child exited normally (low seven bits are zero). -/
def WIFEXITED (s : Nat) : Bool := s % 128 == 0

/-- POSIX wait-status field: the terminating signal (low seven bits). -/
def WTERMSIG (s : Nat) : Nat := s % 128

/-- POSIX wait-status predicate: the child was terminated by a signal
(low seven bits neither 0, a normal exit, nor 0x7f, a stopped child). -/
def WIFSIGNALED (s : Nat) : Bool := s % 128 != 0 && s % 128 != 127

/-- POSIX wait-status field: the exit code of a normally exited child. -/
def WEXITSTATUS (s : Nat) : Nat := s / 256 % 256

/-- Embedding of `os.waitstatus_to_exitcode`: the exit code for a normal exit,
the negated signal number for a signal death, and `none` where the library
function raises (a stopped child). -/
def waitstatus_to_exitcode (s : Nat) : Option Int :=
  if WIFEXITED s then some (WEXITSTATUS s : Int)
  else if WIFSIGNALED s then some (-(WTERMSIG s : Int))
  else Option.none

/-- The guarded threshold test `budget and measured >= budget` of the parent:
falsy budgets (absent or zero) never fire. -/
def budgetHit (budget : Option Int) (measured : Int) : Bool :=
  match budget with
  | some b => b != 0 && decide (b ≤ measured)
  | Option.none => false

/-- The guarded threshold test of the tolerance branch, comparing a rational
adjusted measurement against an integer budget. -/
def tolHit (budget : Option Int) (adjusted : ℚ) : Bool :=
  match budget with
  | some b => b != 0 && decide ((b : ℚ) ≤ adjusted)
  | Option.none => false

/-- The adjusted wall measurement the code computes in its tolerance branch:
`max(duration_ms * 1.02, duration_ms + 0.015)`. -/
def adjWall (duration_ms : Int) : ℚ :=
  max ((duration_ms : ℚ) * (102 / 100)) ((duration_ms : ℚ) + 15 / 1000)

/-- The adjusted CPU measurement the code computes in its tolerance branch:
`max(cpu_time_ms * 1.02, duration_ms + 0.015)` (the second operand reads the
wall duration, exactly as the source does). -/
def adjCpu (cpu_time_ms duration_ms : Int) : ℚ :=
  max ((cpu_time_ms : ℚ) * (102 / 100)) ((duration_ms : ℚ) + 15 / 1000)

/-- The timeout classification of `parent` (parent.py lines 158-170), as a pure
function of the measured wall time, measured CPU time, raw wait status and the
two time budgets. -/
def classifyTimeout (real_time cpu_time : Option Int) (duration_ms cpu_time_ms : Int)
    (exitstatus : Nat) : Bool :=
  if budgetHit real_time duration_ms then true
  else if budgetHit cpu_time cpu_time_ms then true
  else if WIFSIGNALED exitstatus && WTERMSIG exitstatus == 9 then
    if tolHit real_time (adjWall duration_ms) then true
    else if tolHit cpu_time (adjCpu cpu_time_ms duration_ms) then true
    else false
  else false

/-- Reference classification following the specification text (§4.7): the
tolerance re-check recomputes each measurement as
`max(measured * 1.02, measured + 15ms)` and compares the adjusted wall
measurement against `real_time_ms` and the adjusted CPU measurement against
`cpu_time_ms`. -/
def specAdjusted (measured : Int) : ℚ :=
  max ((measured : ℚ) * (102 / 100)) ((measured : ℚ) + 15)

/-- Reference classification following the specification text (§4.7), with the
kill-signal condition abstracted to a boolean. -/
def specClassifyTimeout (real_time cpu_time : Option Int) (duration_ms cpu_time_ms : Int)
    (killedByKillSignal : Bool) : Bool :=
  if budgetHit real_time duration_ms then true
  else if budgetHit cpu_time cpu_time_ms then true
  else if killedByKillSignal then
    if tolHit real_time (specAdjusted duration_ms) then true
    else if tolHit cpu_time (specAdjusted cpu_time_ms) then true
    else false
  else false

/-- The result record `RunStats` of parent.py. -/
structure RunStats where
  exit_code : Int
  max_rss : Int
  cpu_time : Int
  real_time : Int
  timeouted : Bool
deriving DecidableEq

/-- The result construction of `parent` (parent.py lines 149-172), given the
measurements the kernel reports: `none` exactly where `waitstatus_to_exitcode`
would raise. -/
def parentStats (real_time cpu_time : Option Int) (duration_ms cpu_time_ms max_rss : Int)
    (exitstatus : Nat) : Option RunStats :=
  (waitstatus_to_exitcode exitstatus).map fun ec =>
    { exit_code := ec, max_rss := max_rss, cpu_time := cpu_time_ms, real_time := duration_ms,
      timeouted := classifyTimeout real_time cpu_time duration_ms cpu_time_ms exitstatus }

/-- Whether the parent arms the SIGALRM watchdog (parent.py line 144): Python
truthiness of `real_time`. -/
def watchdogArmed (real_time : Option Int) : Bool := truthyInt real_time

/-- C1: the code's tolerance branch diverges from the specified
`max(measured * 1.02, measured + 15ms)` re-check. With `real_time = 100`, a
kill-signal death and a measured wall time of 90 ms the code classifies
`timed_out = false` (it adds `0.015`, i.e. 15 microseconds, not 15 ms) while
the specified rule gives `true`; with `cpu_time = 100`, a measured CPU time of
80 ms and a wall duration of 150 ms the code classifies `true` (it compares
the wall duration in the CPU re-check) while the specified rule gives
`false`. -/
theorem classify_tolerance_code_bug :
    classifyTimeout (some 100) Option.none 90 0 9 = false ∧
    specClassifyTimeout (some 100) Option.none 90 0 true = true ∧
    classifyTimeout Option.none (some 100) 150 80 9 = true ∧
    specClassifyTimeout Option.none (some 100) 150 80 true = false := by
  refine ⟨?_, ?_, ?_, ?_⟩ <;>
    simp [classifyTimeout, specClassifyTimeout, budgetHit, tolHit, adjWall, adjCpu,
      specAdjusted, WIFSIGNALED, WTERMSIG] <;> norm_num

/-- C3: with `real_time = 100`, no CPU budget, and a kill-signal death, a
measured wall time of 99 ms classifies as timed out through the tolerance
re-check, while a measured wall time of 50 ms classifies as not timed out,
whatever CPU time was measured. -/
theorem tolerance_boundary (cpu_ms : Int) :
    classifyTimeout (some 100) Option.none 99 cpu_ms 9 = true ∧
    classifyTimeout (some 100) Option.none 50 cpu_ms 9 = false := by
  constructor <;>
    simp [classifyTimeout, budgetHit, tolHit, adjWall, adjCpu, WIFSIGNALED, WTERMSIG] <;>
    norm_num

/-- C2 counterexample: a child killed by SIGKILL has raw wait status 9; the
produced `RunStats.exit_code` is `-9`, which is neither `128 + 9` nor any
value at or above 128. -/
theorem exitcode_signal_counterexample :
    WIFSIGNALED 9 = true ∧
    (parentStats Option.none Option.none 0 0 0 9).map RunStats.exit_code = some (-9) ∧
    ¬((-9 : Int) ≥ 128) ∧ (-9 : Int) ≠ 128 + 9 := by
  decide

/-- C2 amended: a child terminated by signal `sig` yields
`exit_code = -sig` (a negative value), and a child exiting normally with code
`N` yields `exit_code = N`. -/
theorem exitcode_encoding (sig N : Nat) (hs1 : 0 < sig) (hs2 : sig < 127) (hN : N < 256) :
    waitstatus_to_exitcode sig = some (-(sig : Int)) ∧
    waitstatus_to_exitcode (N * 256) = some (N : Int) ∧
    -(sig : Int) < 0 := by
  have hmod : sig % 128 = sig := Nat.mod_eq_of_lt (by omega)
  have hex : WIFEXITED sig = false := by
    simp [WIFEXITED, hmod]
    omega
  have hsg : WIFSIGNALED sig = true := by
    simp [WIFSIGNALED, hmod]
    omega
  have hex2 : WIFEXITED (N * 256) = true := by
    simp [WIFEXITED]
    omega
  have h2 : N * 256 / 256 % 256 = N := by omega
  refine ⟨?_, ?_, by omega⟩
  · simp [waitstatus_to_exitcode, hex, hsg, WTERMSIG, hmod]
  · simp [waitstatus_to_exitcode, hex2, WEXITSTATUS, h2]
    omega

/-- C2 amended, witness at signal 9 and exit code 7. -/
theorem exitcode_encoding_witness :
    waitstatus_to_exitcode 9 = some (-(9 : Nat) : Int) ∧
    waitstatus_to_exitcode (7 * 256) = some ((7 : Nat) : Int) ∧
    -((9 : Nat) : Int) < 0 :=
  exitcode_encoding 9 7 (by decide) (by decide) (by decide)

/-- C9: the timeout classification is a pure function of the tuple
(wall time, CPU time, wait status, budgets): equal tuples classify equally. -/
theorem classify_deterministic (rt ct : Option Int) (d c : Int) (s : Nat)
    (rt2 ct2 : Option Int) (d2 c2 : Int) (s2 : Nat)
    (h : (rt, ct, d, c, s) = (rt2, ct2, d2, c2, s2)) :
    classifyTimeout rt ct d c s = classifyTimeout rt2 ct2 d2 c2 s2 := by
  simp only [Prod.mk.injEq] at h
  obtain ⟨h1, h2, h3, h4, h5⟩ := h
  subst h1; subst h2; subst h3; subst h4; subst h5
  rfl

/-- C9, witness at a concrete tuple. -/
theorem classify_deterministic_witness :
    classifyTimeout (some 100) Option.none 99 0 9 =
      classifyTimeout (some 100) Option.none 99 0 9 :=
  classify_deterministic (some 100) Option.none 99 0 9 (some 100) Option.none 99 0 9 rfl

/-- A resource-limit value: a finite count (bytes, seconds or processes,
depending on the resource) or `RLIM_INFINITY`. -/
inductive RlimitVal where
  | finite (v : Int)
  | infinity
deriving DecidableEq

/-- The resources the child-setup pipeline limits. -/
inductive Rlimit where
  | DATA
  | STACK
  | CPU
  | FSIZE
  | NPROC
  | CORE
deriving DecidableEq

/-- Truthy-guarded kilobyte-to-byte translation (`value * 1000`), used for the
memory and file-size budgets: absent or zero budgets install nothing. -/
def byteLimit (budget : Option Int) : Option Int :=
  match budget with
  | some v => if v != 0 then some (v * 1000) else Option.none
  | Option.none => Option.none

/-- Truthy-guarded passthrough, used for the process-count budget. -/
def rawLimit (budget : Option Int) : Option Int :=
  match budget with
  | some v => if v != 0 then some v else Option.none
  | Option.none => Option.none

/-- The stack limit of the child (parent.py lines 203-210): a positive value
becomes `stack * 1000` bytes, a negative value becomes `RLIM_INFINITY`, and an
absent or zero value installs nothing. -/
def stackRlimit (stack : Option Int) : Option RlimitVal :=
  match stack with
  | some s =>
    if 0 < s then some (RlimitVal.finite (s * 1000))
    else if s < 0 then some RlimitVal.infinity
    else Option.none
  | Option.none => Option.none

/-- The CPU rlimit of the child (parent.py lines 212-214): `ceil(cpu_time /
1000)` whole seconds for a truthy budget, nothing otherwise. -/
def cpuRlimitSecs (cpu_time : Option Int) : Option Int :=
  match cpu_time with
  | some c => if c != 0 then some ⌈(c : ℚ) / 1000⌉ else Option.none
  | Option.none => Option.none

/-- The budgets the child-setup pipeline consumes when installing rlimits. -/
structure ChildConfig where
  memory : Option Int
  stack : Option Int
  cpu_time : Option Int
  file_size : Option Int
  processes : Option Int
deriving DecidableEq

/-- An optional rlimit entry rendered as a zero-or-one element list. -/
def optEntry (r : Rlimit) (v : Option RlimitVal) : List (Rlimit × RlimitVal) :=
  match v with
  | some x => [(r, x)]
  | Option.none => []

/-- The ordered list of rlimit settings the child installs (parent.py lines
199-224): memory, stack, CPU time, file size, process count — each only when
its budget is truthy — and finally an unconditional zero core-dump limit. -/
def childRlimits (c : ChildConfig) : List (Rlimit × RlimitVal) :=
  optEntry Rlimit.DATA ((byteLimit c.memory).map RlimitVal.finite) ++
  optEntry Rlimit.STACK (stackRlimit c.stack) ++
  optEntry Rlimit.CPU ((cpuRlimitSecs c.cpu_time).map RlimitVal.finite) ++
  optEntry Rlimit.FSIZE ((byteLimit c.file_size).map RlimitVal.finite) ++
  optEntry Rlimit.NPROC ((rawLimit c.processes).map RlimitVal.finite) ++
  [(Rlimit.CORE, RlimitVal.finite 0)]

/-- C5: a truthy `cpu_time` budget installs a CPU rlimit of exactly
`ceil(cpu_time / 1000)` whole seconds, and for every positive budget — in
particular every sub-second one — that limit is at least one second. -/
theorem cpu_limit_ceil (c : Int) (h : c ≠ 0) :
    cpuRlimitSecs (some c) = some ⌈(c : ℚ) / 1000⌉ ∧
    (0 < c → 1 ≤ ⌈(c : ℚ) / 1000⌉) := by
  constructor
  · simp [cpuRlimitSecs, h]
  · intro hc
    have hq : (0 : ℚ) < (c : ℚ) / 1000 := by
      apply div_pos
      · exact_mod_cast hc
      · norm_num
    exact Int.ceil_pos.mpr hq

/-- C5, witness at a sub-second budget of 500 ms. -/
theorem cpu_limit_ceil_witness :
    cpuRlimitSecs (some 500) = some ⌈((500 : Int) : ℚ) / 1000⌉ ∧
    (0 < (500 : Int) → 1 ≤ ⌈((500 : Int) : ℚ) / 1000⌉) :=
  cpu_limit_ceil 500 (by decide)

/-- C6: a positive stack budget installs a limit of `stack * 1000` bytes, a
negative one installs an unbounded limit, and zero installs nothing. -/
theorem stack_limit_cases (s : Int) :
    (0 < s → stackRlimit (some s) = some (RlimitVal.finite (s * 1000))) ∧
    (s < 0 → stackRlimit (some s) = some RlimitVal.infinity) ∧
    stackRlimit (some 0) = Option.none := by
  refine ⟨fun h => ?_, fun h => ?_, rfl⟩
  · simp [stackRlimit, h]
  · have h2 : ¬(0 < s) := by omega
    simp [stackRlimit, h, h2]

/-- C6, witness at stack budgets 5 and -1. -/
theorem stack_limit_cases_witness :
    stackRlimit (some 5) = some (RlimitVal.finite (5 * 1000)) ∧
    stackRlimit (some (-1)) = some RlimitVal.infinity :=
  ⟨(stack_limit_cases 5).1 (by decide), (stack_limit_cases (-1)).2.1 (by decide)⟩

/-- C7: whatever the budgets, the child pipeline always installs a zero
core-dump limit. -/
theorem core_dump_always_zero (c : ChildConfig) :
    (Rlimit.CORE, RlimitVal.finite 0) ∈ childRlimits c := by
  simp [childRlimits]

/-- Lookup in an insertion-ordered dictionary rendered as an association list:
the first matching key wins (each key occurs at most once in lists built by
`dictSet`). -/
def dictGet {α β : Type} [DecidableEq α] (d : List (α × β)) (k : α) : Option β :=
  match d with
  | [] => Option.none
  | p :: rest => if p.1 = k then some p.2 else dictGet rest k

/-- Python dict assignment `d[k] = v`: overwrite in place when the key is
present, append otherwise (insertion order preserved). -/
def dictSet {α β : Type} [DecidableEq α] (d : List (α × β)) (k : α) (v : β) :
    List (α × β) :=
  if d.any (fun p => decide (p.1 = k)) then
    d.map (fun p => if p.1 = k then (k, v) else p)
  else d ++ [(k, v)]

/-- Python `d.update(upd)`: assign every pair of `upd` into `d`, in order. -/
def dictUpdate {α β : Type} [DecidableEq α] (d upd : List (α × β)) : List (α × β) :=
  upd.foldl (fun acc p => dictSet acc p.1 p.2) d

/-- Last-occurrence lookup on a raw pair list: the value the corresponding
Python dict would hold for this key. -/
def lastGet {α β : Type} [DecidableEq α] (l : List (α × β)) (k : α) : Option β :=
  match l with
  | [] => Option.none
  | p :: rest =>
    match lastGet rest k with
    | some v => some v
    | Option.none => if p.1 = k then some p.2 else Option.none

/-- The environment assembly of the child (parent.py lines 352-355): start from
an empty dict, update with the inherited environment unless `empty_env`, then
update with the explicit overrides. -/
def processEnv {α β : Type} [DecidableEq α] (inherited overrides : List (α × β))
    (empty_env : Bool) : List (α × β) :=
  dictUpdate (if empty_env then [] else dictUpdate [] inherited) overrides

theorem dictGet_of_not_any {α β : Type} [DecidableEq α] (d : List (α × β)) (k : α)
    (h : d.any (fun p => decide (p.1 = k)) = false) : dictGet d k = Option.none := by
  induction d with
  | nil => rfl
  | cons p rest ih =>
    simp only [List.any_cons, Bool.or_eq_false_iff, decide_eq_false_iff_not] at h
    simp [dictGet, h.1, ih h.2]

theorem dictGet_map_overwrite {α β : Type} [DecidableEq α] (d : List (α × β))
    (k k2 : α) (v : β) (h : k ≠ k2) :
    dictGet (d.map (fun p => if p.1 = k then (k, v) else p)) k2 = dictGet d k2 := by
  induction d with
  | nil => rfl
  | cons p rest ih =>
    by_cases hp : p.1 = k
    · simp [dictGet, hp, h, ih]
    · simp only [List.map_cons, if_neg hp, dictGet, ih]

theorem dictGet_map_overwrite_hit {α β : Type} [DecidableEq α] (d : List (α × β))
    (k : α) (v : β) (h : d.any (fun p => decide (p.1 = k)) = true) :
    dictGet (d.map (fun p => if p.1 = k then (k, v) else p)) k = some v := by
  induction d with
  | nil => simp at h
  | cons p rest ih =>
    by_cases hp : p.1 = k
    · simp [dictGet, hp]
    · simp only [List.any_cons, Bool.or_eq_true_iff, decide_eq_true_eq] at h
      rcases h with h | h
      · exact absurd h hp
      · simp only [List.map_cons, if_neg hp, dictGet, if_neg hp]
        exact ih h

theorem dictGet_append {α β : Type} [DecidableEq α] (d e : List (α × β)) (k : α) :
    dictGet (d ++ e) k =
      match dictGet d k with
      | some v => some v
      | Option.none => dictGet e k := by
  induction d with
  | nil => rfl
  | cons p rest ih =>
    by_cases hp : p.1 = k
    · simp [dictGet, hp]
    · simp [dictGet, hp, ih]

theorem dictGet_dictSet {α β : Type} [DecidableEq α] (d : List (α × β)) (k k2 : α)
    (v : β) : dictGet (dictSet d k v) k2 = if k = k2 then some v else dictGet d k2 := by
  unfold dictSet
  by_cases hany : d.any (fun p => decide (p.1 = k)) = true
  · rw [if_pos hany]
    by_cases hk : k = k2
    · subst hk
      rw [if_pos rfl, dictGet_map_overwrite_hit d k v hany]
    · rw [if_neg hk, dictGet_map_overwrite d k k2 v hk]
  · rw [if_neg hany, dictGet_append]
    have hnone : dictGet d k = Option.none :=
      dictGet_of_not_any d k (Bool.eq_false_iff.mpr hany)
    by_cases hk : k = k2
    · subst hk
      rw [hnone]
      simp [dictGet]
    · cases hd : dictGet d k2 with
      | none => simp [dictGet, if_neg hk, hd]
      | some w => simp [dictGet, hk, hd]

theorem dictGet_dictUpdate {α β : Type} [DecidableEq α] (d upd : List (α × β)) (k : α) :
    dictGet (dictUpdate d upd) k =
      match lastGet upd k with
      | some v => some v
      | Option.none => dictGet d k := by
  induction upd generalizing d with
  | nil => rfl
  | cons p rest ih =>
    show dictGet (dictUpdate (dictSet d p.1 p.2) rest) k = _
    rw [ih]
    cases hr : lastGet rest k with
    | some v => simp [lastGet, hr]
    | none =>
      simp only [lastGet, hr, dictGet_dictSet]
      by_cases hp : p.1 = k
      · simp [hp]
      · simp [hp]

/-- C8: the environment handed to the target resolves every key to its last
explicit override when one exists; otherwise to nothing when inheritance is
suppressed, and to the inherited value when it is not. -/
theorem env_assembly {α β : Type} [DecidableEq α] (inherited overrides : List (α × β))
    (empty_env : Bool) (k : α) :
    dictGet (processEnv inherited overrides empty_env) k =
      match lastGet overrides k with
      | some v => some v
      | Option.none => if empty_env then Option.none else lastGet inherited k := by
  unfold processEnv
  rw [dictGet_dictUpdate]
  cases lastGet overrides k with
  | some v => rfl
  | none =>
    cases empty_env with
    | true => rfl
    | false =>
      simp only [if_neg Bool.false_ne_true, Bool.false_eq_true, if_false]
      rw [dictGet_dictUpdate]
      cases lastGet inherited k with
      | some v => rfl
      | none => rfl

/-- C8, witness: an explicit override of key 2 wins over the inherited value. -/
theorem env_assembly_witness :
    dictGet (processEnv [(1, 10), (2, 20)] [(2, 99)] false) 2 = some 99 := by
  have h := env_assembly (α := Nat) (β := Nat) [(1, 10), (2, 20)] [(2, 99)] false 2
  simpa using h

/-- The closed choice set of the `--seccomp-default` CLI option: `allow`,
`deny`, `kill`, or the literal choice `none` (no filtering), here called
`nofilter` to avoid clashing with `Option.none`. -/
inductive SeccompDefault where
  | allow
  | deny
  | kill
  | nofilter
deriving DecidableEq

/-- The seccomp filter primitives the code names. -/
inductive SeccompAction where
  | ALLOW
  | DENY
  | KILL
  | KILL_PROCESS
  | ERRNO (n : Nat)
deriving DecidableEq

/-- A constructed syscall filter: its default action and its rule list. -/
structure SyscallFilter where
  defaction : SeccompAction
  rules : List (SeccompAction × String)
deriving DecidableEq

/-- The `getattr(seccomp, seccomp_default.upper())` mapping for an explicitly
specified default action. -/
def defactionOf : SeccompDefault → SeccompAction
  | SeccompDefault.allow => SeccompAction.ALLOW
  | SeccompDefault.deny => SeccompAction.DENY
  | SeccompDefault.kill => SeccompAction.KILL
  | SeccompDefault.nofilter => SeccompAction.ALLOW

/-- The rule list built when an explicit default action was given: the
`always_allow` syscalls as ALLOW rules, the `deny` syscalls as
permission-error (`ERRNO(1)`) rules, and the `kill` syscalls as
KILL_PROCESS rules. -/
def explicitRules (al de ki : List String) : List (SeccompAction × String) :=
  al.map (fun s => (SeccompAction.ALLOW, s)) ++
  de.map (fun s => (SeccompAction.ERRNO 1, s)) ++
  ki.map (fun s => (SeccompAction.KILL_PROCESS, s))

/-- The syscall-filter construction of the child (parent.py lines 227-247):
nothing when the default is the literal choice `none`; a filter with the
mapped default action and the explicit rule lists when a default was given;
and, when no default was specified at all, an allow-by-default filter whose
single rule denies the `kill` syscall with a permission error. -/
def buildSyscallFilter (d : Option SeccompDefault) (al de ki : List String) :
    Option SyscallFilter :=
  match d with
  | some SeccompDefault.nofilter => Option.none
  | Option.none =>
    some { defaction := SeccompAction.ALLOW, rules := [(SeccompAction.ERRNO 1, "kill")] }
  | some a => some { defaction := defactionOf a, rules := explicitRules al de ki }

/-- C4: whenever the default action is not the literal choice `none`, an
explicitly specified default yields a filter with the matching primitive as
default action and the allow / permission-error / kill rule lists applied,
while an unspecified default yields an allow-by-default filter whose only rule
denies the `kill` syscall with a permission error, the explicit lists being
ignored. -/
theorem seccomp_filter_construction (al de ki : List String) :
    buildSyscallFilter (some SeccompDefault.allow) al de ki =
      some { defaction := SeccompAction.ALLOW, rules := explicitRules al de ki } ∧
    buildSyscallFilter (some SeccompDefault.deny) al de ki =
      some { defaction := SeccompAction.DENY, rules := explicitRules al de ki } ∧
    buildSyscallFilter (some SeccompDefault.kill) al de ki =
      some { defaction := SeccompAction.KILL, rules := explicitRules al de ki } ∧
    buildSyscallFilter Option.none al de ki =
      some { defaction := SeccompAction.ALLOW,
             rules := [(SeccompAction.ERRNO 1, "kill")] } ∧
    buildSyscallFilter (some SeccompDefault.nofilter) al de ki = Option.none :=
  ⟨rfl, rfl, rfl, rfl, rfl⟩

/-- C10 counterexample: a negative budget is truthy, so with
`real_time = -1` a 5 ms run is classified as timed out even though the
triggering budget is not strictly positive. -/
theorem zero_budget_counterexample :
    classifyTimeout (some (-1)) Option.none 5 0 0 = true ∧ ¬(0 < (-1 : Int)) := by
  decide

theorem budgetHit_truthy (b : Option Int) (m : Int) (h : budgetHit b m = true) :
    truthyInt b = true := by
  cases b with
  | none => simp [budgetHit] at h
  | some x =>
    simp only [budgetHit, Bool.and_eq_true] at h
    simp [truthyInt, h.1]

theorem tolHit_truthy (b : Option Int) (q : ℚ) (h : tolHit b q = true) :
    truthyInt b = true := by
  cases b with
  | none => simp [tolHit] at h
  | some x =>
    simp only [tolHit, Bool.and_eq_true] at h
    simp [truthyInt, h.1]

/-- C10 amended: a budget supplied as zero is treated as absent everywhere —
`real_time = 0` arms no watchdog and classifies exactly like an absent budget,
`cpu_time = 0` installs no CPU rlimit and classifies exactly like an absent
budget, `memory`, `file_size` and `processes` of zero install no rlimit — and
the classification can only report a timeout when a truthy (nonzero) time
budget is present. -/
theorem zero_budget_absent (rt ct : Option Int) (d c : Int) (s : Nat) :
    classifyTimeout (some 0) ct d c s = classifyTimeout Option.none ct d c s ∧
    watchdogArmed (some 0) = false ∧
    classifyTimeout rt (some 0) d c s = classifyTimeout rt Option.none d c s ∧
    cpuRlimitSecs (some 0) = Option.none ∧
    byteLimit (some 0) = Option.none ∧
    rawLimit (some 0) = Option.none ∧
    (classifyTimeout rt ct d c s = true → truthyInt rt = true ∨ truthyInt ct = true) := by
  refine ⟨?_, rfl, ?_, rfl, rfl, rfl, ?_⟩
  · simp [classifyTimeout, budgetHit, tolHit]
  · simp [classifyTimeout, budgetHit, tolHit]
  · intro h
    unfold classifyTimeout at h
    by_cases h1 : budgetHit rt d = true
    · exact Or.inl (budgetHit_truthy rt d h1)
    · rw [if_neg h1] at h
      by_cases h2 : budgetHit ct c = true
      · exact Or.inr (budgetHit_truthy ct c h2)
      · rw [if_neg h2] at h
        by_cases h3 : (WIFSIGNALED s && WTERMSIG s == 9) = true
        · rw [if_pos h3] at h
          by_cases h4 : tolHit rt (adjWall d) = true
          · exact Or.inl (tolHit_truthy rt (adjWall d) h4)
          · rw [if_neg h4] at h
            by_cases h5 : tolHit ct (adjCpu c d) = true
            · exact Or.inr (tolHit_truthy ct (adjCpu c d) h5)
            · rw [if_neg h5] at h
              exact absurd h (by simp)
        · rw [if_neg h3] at h
          exact absurd h (by simp)

/-- C10 amended, witness: zero real-time and CPU budgets classify like absent
ones at a concrete measurement, and a timeout at a truthy budget names that
budget. -/
theorem zero_budget_absent_witness :
    classifyTimeout (some 0) Option.none 10 0 0 =
      classifyTimeout Option.none Option.none 10 0 0 ∧
    (classifyTimeout (some 7) Option.none 10 0 0 = true →
      truthyInt (some 7) = true ∨ truthyInt Option.none = true) :=
  ⟨(zero_budget_absent Option.none Option.none 10 0 0).1,
   (zero_budget_absent (some 7) Option.none 10 0 0).2.2.2.2.2.2⟩
